import Mathlib

/-!
Shallow embedding of the promo-performance classification and aggregation
engine of streamlit_app.py (Town & Country Markets promo dashboard).

Modelling conventions:
* A pandas dataframe row of data/promo_period.csv is a PromoRecord.
  Numeric float columns are modelled as rationals; the date columns
  promo_start and promo_end are modelled as natural day ordinals, since only
  their order is ever used (by the sort in classify_overall_recommendation
  and by the chart layer).
* The pandas groupby on upc sorts group keys ascending (pandas default) and
  its first-aggregation takes the first row of the group in original input
  order; both are modelled explicitly.
* nlargest and nsmallest keep the first occurrence on ties (pandas default),
  modelled by a stable merge sort followed by take.
* Python float formatting (one decimal; comma-grouped two decimals) is
  modelled over the rationals with rounding at the last digit; the decimal
  rendering of binary floats is abstracted.  No claim in this development
  depends on the rounding mode, only on the string plumbing around it.
-/

/-- One row of data/promo_period.csv, as loaded at line 6 of the source. -/
structure PromoRecord where
  upc : Nat
  long_Desc : String
  sale_period : Nat
  promo_start : Nat
  promo_end : Nat
  promo_length : Nat
  promo_revenue : ℚ
  preceding_non_promo_revenue : ℚ
  lift : ℚ
  promo_profit : ℚ
  preceding_non_promo_profit : ℚ
  profit_difference : ℚ
deriving DecidableEq, Repr

/-- One row of the upc_summary dataframe built at lines 49-56. -/
structure ItemAggregate where
  upc : Nat
  item_name : String
  avg_profit : ℚ
  avg_lift : ℚ
  total_revenue : ℚ
  total_profit : ℚ
  promo_count : Nat
deriving DecidableEq, Repr

/-- The records of one groupby group for a given upc, in original row order. -/
def groupRecords (records : List PromoRecord) (u : Nat) : List PromoRecord :=
  records.filter (fun r => r.upc == u)

/-- The distinct upc keys in ascending order: the pandas groupby sorts group
keys (default sort behaviour). -/
def sortedUpcs (records : List PromoRecord) : List Nat :=
  ((records.map PromoRecord.upc).dedup).mergeSort (fun a b => a ≤ b)

/-- Arithmetic mean, as the pandas mean aggregation over a nonempty group. -/
def listMean (xs : List ℚ) : ℚ :=
  xs.sum / (xs.length : ℚ)

/-- The aggregation dictionary of lines 49-56 applied to one upc group:
first on Long_Desc, mean on profit_difference and lift, sum on promo_revenue
and promo_profit, count on sale_period. -/
def aggregateGroup (u : Nat) (g : List PromoRecord) : ItemAggregate where
  upc := u
  item_name := ((g.head?).map PromoRecord.long_Desc).getD ("")
  avg_profit := listMean (g.map PromoRecord.profit_difference)
  avg_lift := listMean (g.map PromoRecord.lift)
  total_revenue := (g.map PromoRecord.promo_revenue).sum
  total_profit := (g.map PromoRecord.promo_profit).sum
  promo_count := g.length

/-- Lines 49-56: promo_periods grouped by upc, aggregated, index reset. -/
def upc_summary (records : List PromoRecord) : List ItemAggregate :=
  (sortedUpcs records).map (fun u => aggregateGroup u (groupRecords records u))

/-- Lines 66-74: the quadrant classifier classify_item(lift, profit_diff). -/
def classify_item (lift profit_diff : ℚ) : String :=
  if lift ≥ 1.2 ∧ profit_diff > 0 then "⭐ Star"
  else if lift < 1.2 ∧ profit_diff < 0 then "⚠ Risk"
  else if lift ≥ 1.2 ∧ profit_diff < 0 then "📉 High Lift but Inefficient"
  else "💡 Efficient but Low Lift"

/-- Line 63: the rows of upc_summary whose promo_count is at least min_promos. -/
def filtered_df (min_promos : Nat) (summary : List ItemAggregate) : List ItemAggregate :=
  summary.filter (fun a => min_promos ≤ a.promo_count)

/-- Pandas nlargest with default keep-first tie handling: a stable sort by
the key descending, then the first n rows. -/
def nlargest (n : Nat) (key : ItemAggregate → ℚ) (xs : List ItemAggregate) : List ItemAggregate :=
  (xs.mergeSort (fun a b => key b ≤ key a)).take n

/-- Pandas nsmallest with default keep-first tie handling: a stable sort by
the key ascending, then the first n rows. -/
def nsmallest (n : Nat) (key : ItemAggregate → ℚ) (xs : List ItemAggregate) : List ItemAggregate :=
  (xs.mergeSort (fun a b => key a ≤ key b)).take n

/-- The star candidates of line 80: filtered rows with avg_lift at least 1.2
and positive avg_profit. -/
def starCandidates (min_promos : Nat) (summary : List ItemAggregate) : List ItemAggregate :=
  (filtered_df min_promos summary).filter
    (fun a => (1.2 : ℚ) ≤ a.avg_lift ∧ (0 : ℚ) < a.avg_profit)

/-- The risk candidates of line 81: filtered rows with avg_lift below 1.2
and negative avg_profit. -/
def riskCandidates (min_promos : Nat) (summary : List ItemAggregate) : List ItemAggregate :=
  (filtered_df min_promos summary).filter
    (fun a => a.avg_lift < (1.2 : ℚ) ∧ a.avg_profit < (0 : ℚ))

/-- Lines 77-83: top 2 stars and bottom 2 risks from the filtered rows,
guarded by the emptiness check on filtered_df, concatenated. -/
def highlight_items (min_promos : Nat) (summary : List ItemAggregate) : List ItemAggregate :=
  if (filtered_df min_promos summary).isEmpty then []
  else
    nlargest 2 ItemAggregate.avg_profit (starCandidates min_promos summary) ++
    nsmallest 2 ItemAggregate.avg_profit (riskCandidates min_promos summary)

/-- Insert a thousands separator every three digits; input and output are
digit lists in reverse (least-significant digit first). -/
def commaGroupRev (ds : List Char) : List Char :=
  if _h : ds.length ≤ 3 then ds
  else ds.take 3 ++ ',' :: commaGroupRev (ds.drop 3)
termination_by ds.length
decreasing_by simp [List.length_drop]; omega

/-- Render a natural number with comma thousands grouping. -/
def commaGrouped (n : Nat) : String :=
  String.mk (commaGroupRev (toString n).toList.reverse).reverse

/-- The two-decimal comma-grouped money format of the source over rationals:
two decimals, comma-grouped integer part, leading minus for negatives. -/
def formatMoney (q : ℚ) : String :=
  let cents : ℤ := round (q * 100)
  let sign := if cents < 0 then "-" else ""
  let a := cents.natAbs
  let frac := a % 100
  sign ++ commaGrouped (a / 100) ++ "." ++ (if frac < 10 then "0" else "") ++ toString frac

/-- The one-decimal format of the source over rationals. -/
def formatLift (q : ℚ) : String :=
  let tenths : ℤ := round (q * 10)
  let sign := if tenths < 0 then "-" else ""
  let a := tenths.natAbs
  sign ++ toString (a / 10) ++ "." ++ toString (a % 10)

/-- Lines 250-257: the four-branch body of classify_overall_recommendation,
applied to the lift and profit_difference of the latest promo record. -/
def recommend_for (latest : PromoRecord) : Option String × String :=
  let lift := latest.lift
  let profit_diff := latest.profit_difference
  if lift ≥ 1.2 ∧ profit_diff > 0 then
    (some ("⭐ Star"),
      "This item shows strong performance with " ++ formatLift lift ++
      "x lift and a profit gain of $" ++ formatMoney profit_diff ++
      ". Keep promoting and consider increasing support.")
  else if lift < 1.2 ∧ profit_diff < 0 then
    (some ("⚠ Risk"),
      "Low lift (" ++ formatLift lift ++ "x) and a profit loss of $" ++
      formatMoney profit_diff ++ ". Consider discontinuing promotions.")
  else if lift ≥ 1.2 ∧ profit_diff < 0 then
    (some ("📉 High Lift but Inefficient"),
      formatLift lift ++ "x lift but costs $" ++ formatMoney profit_diff ++
      " in profit. Consider reducing discount depth or adjusting price.")
  else
    (some ("💡 Efficient but Low Lift"),
      "$" ++ formatMoney profit_diff ++ " profit gain but only " ++
      formatLift lift ++ "x lift. Consider targeted campaigns to improve sales.")

/-- Line 245: sort by promo_start ascending and take the last row, the most
recent promotion period. -/
def latest_promo (df : List PromoRecord) : Option PromoRecord :=
  (df.mergeSort (fun a b => a.promo_start ≤ b.promo_start)).getLast?

/-- Lines 239-257: classify_overall_recommendation(df). -/
def classify_overall_recommendation (df : List PromoRecord) : Option String × String :=
  if df.isEmpty then (none, "No promotions found for this item.")
  else
    match latest_promo df with
    | none => (none, "No promotions found for this item.")
    | some latest => recommend_for latest

/-- The in-memory promo_periods dataframe: its PromoRecord rows plus any
columns assigned after loading (name paired with the column values). -/
structure PromoTable where
  rows : List PromoRecord
  extraCols : List (String × List Nat)
deriving DecidableEq, Repr

/-- Line 6: the freshly loaded promo_periods table has exactly the CSV
columns and no extras. -/
def load_promo_periods (rows : List PromoRecord) : PromoTable :=
  { rows := rows, extraCols := [] }

/-- Lines 197-198: the script assigns two new derived columns, start_date and
end_date, to the loaded promo_periods table in place (the to_datetime
conversion is the identity on our day-ordinal date model). -/
def add_date_columns (t : PromoTable) : PromoTable :=
  { rows := t.rows,
    extraCols := t.extraCols ++
      [("start_date", t.rows.map PromoRecord.promo_start),
       ("end_date", t.rows.map PromoRecord.promo_end)] }

/-- Everything the engine hands to the presentation layer in one render
cycle, plus the final state of the promo_periods table. -/
structure PipelineOutput where
  summary : List ItemAggregate
  highlights : List ItemAggregate
  highlightLabels : List String
  recommendation : Option String × String
  finalTable : PromoTable
deriving DecidableEq, Repr

/-- One render cycle of the dashboard script: load, aggregate (lines 49-56),
highlight (lines 77-83) with labels (line 89), date-column assignment
(lines 197-198), per-item filter (line 210) and recommendation (line 262). -/
def run_pipeline (rows : List PromoRecord) (min_promos : Nat)
    (selected_item : String) : PipelineOutput :=
  let t := load_promo_periods rows
  let summary := upc_summary t.rows
  let hl := highlight_items min_promos summary
  let labels := hl.map (fun a => classify_item a.avg_lift a.avg_profit)
  let t2 := add_date_columns t
  let item_promos := t2.rows.filter (fun r => r.long_Desc == selected_item)
  { summary := summary, highlights := hl, highlightLabels := labels,
    recommendation := classify_overall_recommendation item_promos,
    finalTable := t2 }

/-- Sample row used to instantiate hypotheses of the theorems below. -/
def wRec1 : PromoRecord where
  upc := 10
  long_Desc := "APPLES"
  sale_period := 1
  promo_start := 5
  promo_end := 6
  promo_length := 1
  promo_revenue := 100
  preceding_non_promo_revenue := 80
  lift := 2
  promo_profit := 30
  preceding_non_promo_profit := 10
  profit_difference := 20

/-- Second sample row, same upc as the first, later promo_start. -/
def wRec2 : PromoRecord where
  upc := 10
  long_Desc := "APPLES GALA"
  sale_period := 2
  promo_start := 8
  promo_end := 9
  promo_length := 1
  promo_revenue := 60
  preceding_non_promo_revenue := 70
  lift := 1
  promo_profit := 4
  preceding_non_promo_profit := 8
  profit_difference := -4

/-- Sample aggregate row used to instantiate hypotheses of theorems below. -/
def wAgg1 : ItemAggregate where
  upc := 10
  item_name := "APPLES"
  avg_profit := 20
  avg_lift := 2
  total_revenue := 100
  total_profit := 30
  promo_count := 1

theorem map_upc_upc_summary (records : List PromoRecord) :
    (upc_summary records).map ItemAggregate.upc = sortedUpcs records := by
  unfold upc_summary
  rw [List.map_map]
  have hcomp : (ItemAggregate.upc ∘ fun u => aggregateGroup u (groupRecords records u)) = id := by
    funext u
    rfl
  rw [hcomp, List.map_id]

theorem mem_sortedUpcs {records : List PromoRecord} {u : Nat} :
    u ∈ sortedUpcs records ↔ u ∈ records.map PromoRecord.upc := by
  simp [sortedUpcs, List.mem_mergeSort, List.mem_dedup]

theorem sortedUpcs_nodup (records : List PromoRecord) : (sortedUpcs records).Nodup :=
  ((List.mergeSort_perm _ _).nodup_iff).mpr (List.nodup_dedup (records.map PromoRecord.upc))

theorem upc_summary_pair_eval :
    upc_summary [wRec1, wRec2] = [aggregateGroup 10 (groupRecords [wRec1, wRec2] 10)] := by
  have hd : ([wRec1.upc, wRec2.upc] : List Nat).dedup = [10] := by decide
  simp [upc_summary, sortedUpcs, hd]

/-- C2: the aggregator yields exactly one aggregate per distinct upc (the upc
column of the summary has no duplicates and covers exactly the upcs present
in the input), each promo_count counts the records of that upc, and the
empty input gives the empty summary. -/
theorem upc_summary_per_upc (records : List PromoRecord) :
    ((upc_summary records).map ItemAggregate.upc).Nodup
    ∧ (∀ u : Nat,
        u ∈ (upc_summary records).map ItemAggregate.upc ↔ u ∈ records.map PromoRecord.upc)
    ∧ (∀ a ∈ upc_summary records,
        a.promo_count = (records.filter (fun r => r.upc == a.upc)).length)
    ∧ upc_summary [] = [] := by
  refine ⟨?_, ?_, ?_, by simp [upc_summary, sortedUpcs]⟩
  · rw [map_upc_upc_summary]
    exact sortedUpcs_nodup records
  · intro u
    rw [map_upc_upc_summary]
    exact mem_sortedUpcs
  · intro a ha
    obtain ⟨u, hu, rfl⟩ := List.mem_map.1 ha
    simp [aggregateGroup, groupRecords]

/-- Witness for C2 on two records sharing one upc. -/
theorem upc_summary_per_upc_witness :
    aggregateGroup 10 (groupRecords [wRec1, wRec2] 10) ∈ upc_summary [wRec1, wRec2]
    ∧ (aggregateGroup 10 (groupRecords [wRec1, wRec2] 10)).promo_count
        = ([wRec1, wRec2].filter
            (fun r => r.upc == (aggregateGroup 10 (groupRecords [wRec1, wRec2] 10)).upc)).length := by
  have hmem : aggregateGroup 10 (groupRecords [wRec1, wRec2] 10) ∈ upc_summary [wRec1, wRec2] := by
    rw [upc_summary_pair_eval]
    exact List.mem_singleton.mpr rfl
  exact ⟨hmem, (upc_summary_per_upc [wRec1, wRec2]).2.2.1 _ hmem⟩

/-- C3: each aggregate carries the display name of the first record of its
group in original input order (the first match of find?), the arithmetic
means of profit_difference and lift over the group, and the sums of
promo_revenue and promo_profit. -/
theorem upc_summary_fields (records : List PromoRecord) :
    ∀ a ∈ upc_summary records,
      (∃ r, records.find? (fun s => s.upc == a.upc) = some r ∧ a.item_name = r.long_Desc)
      ∧ a.avg_profit
          = ((groupRecords records a.upc).map PromoRecord.profit_difference).sum
            / ((groupRecords records a.upc).length : ℚ)
      ∧ a.avg_lift
          = ((groupRecords records a.upc).map PromoRecord.lift).sum
            / ((groupRecords records a.upc).length : ℚ)
      ∧ a.total_revenue = ((groupRecords records a.upc).map PromoRecord.promo_revenue).sum
      ∧ a.total_profit = ((groupRecords records a.upc).map PromoRecord.promo_profit).sum := by
  intro a ha
  obtain ⟨u, hu, rfl⟩ := List.mem_map.1 ha
  have hne : groupRecords records u ≠ [] := by
    obtain ⟨r0, hr0, hequ⟩ := List.mem_map.1 (mem_sortedUpcs.1 hu)
    exact List.ne_nil_of_mem (List.mem_filter.mpr ⟨hr0, by simp [hequ]⟩)
  obtain ⟨r, hr⟩ : ∃ r, (groupRecords records u).head? = some r := by
    cases hg : (groupRecords records u).head? with
    | none => exact absurd (List.head?_eq_none_iff.1 hg) hne
    | some r => exact ⟨r, rfl⟩
  refine ⟨⟨r, ?_, ?_⟩, ?_, ?_, rfl, rfl⟩
  · show records.find? (fun s => s.upc == u) = some r
    rw [← List.filter_head?]
    exact hr
  · show ((groupRecords records u).head?.map PromoRecord.long_Desc).getD ("") = r.long_Desc
    simp [hr]
  · show listMean ((groupRecords records u).map PromoRecord.profit_difference)
      = ((groupRecords records u).map PromoRecord.profit_difference).sum
        / ((groupRecords records u).length : ℚ)
    simp [listMean]
  · show listMean ((groupRecords records u).map PromoRecord.lift)
      = ((groupRecords records u).map PromoRecord.lift).sum
        / ((groupRecords records u).length : ℚ)
    simp [listMean]

/-- Witness for C3: the mean-profit field on two records sharing one upc. -/
theorem upc_summary_fields_witness :
    (aggregateGroup 10 (groupRecords [wRec1, wRec2] 10)).avg_profit
      = ((groupRecords [wRec1, wRec2] 10).map PromoRecord.profit_difference).sum
        / ((groupRecords [wRec1, wRec2] 10).length : ℚ) := by
  have hmem : aggregateGroup 10 (groupRecords [wRec1, wRec2] 10) ∈ upc_summary [wRec1, wRec2] := by
    rw [upc_summary_pair_eval]
    exact List.mem_singleton.mpr rfl
  exact ((upc_summary_fields [wRec1, wRec2]) _ hmem).2.1

/-- C1: the quadrant classifier is a total function: for every pair of a
nonnegative lift and a profit difference it returns exactly one of the four
labels (the four label strings are pairwise distinct), branches evaluated in
first-match order; the boundary pair of lift 1.2 and profit difference 0
yields the Efficient-but-Low-Lift label, not the High-Lift-Inefficient one. -/
theorem classify_item_total (lift profit_diff : ℚ) (h : 0 ≤ lift) :
    (classify_item lift profit_diff = "⭐ Star"
      ∨ classify_item lift profit_diff = "⚠ Risk"
      ∨ classify_item lift profit_diff = "📉 High Lift but Inefficient"
      ∨ classify_item lift profit_diff = "💡 Efficient but Low Lift")
    ∧ (["⭐ Star", "⚠ Risk", "📉 High Lift but Inefficient",
        "💡 Efficient but Low Lift"] : List String).Nodup
    ∧ classify_item 1.2 0 = "💡 Efficient but Low Lift" := by
  refine ⟨?_, by decide, ?_⟩
  · unfold classify_item
    split_ifs <;> simp
  · unfold classify_item
    norm_num

/-- Witness for C1 at the concrete pair of lift 3 and profit difference 1. -/
theorem classify_item_total_witness :
    (0 : ℚ) ≤ 3
    ∧ ((classify_item 3 1 = "⭐ Star"
        ∨ classify_item 3 1 = "⚠ Risk"
        ∨ classify_item 3 1 = "📉 High Lift but Inefficient"
        ∨ classify_item 3 1 = "💡 Efficient but Low Lift")
      ∧ (["⭐ Star", "⚠ Risk", "📉 High Lift but Inefficient",
          "💡 Efficient but Low Lift"] : List String).Nodup
      ∧ classify_item 1.2 0 = "💡 Efficient but Low Lift") :=
  ⟨by norm_num, classify_item_total 3 1 (by norm_num)⟩

theorem pairwise_rel_getLast {α : Type} {R : α → α → Prop} (hrefl : ∀ a, R a a)
    {l : List α} (hp : l.Pairwise R) (hne : l ≠ []) :
    ∀ x ∈ l, R x (l.getLast hne) := by
  intro x hx
  have hd := List.dropLast_append_getLast hne
  rw [← hd] at hp hx
  rcases List.mem_append.1 hx with hx1 | hx2
  · exact (List.pairwise_append.1 hp).2.2 x hx1 _ (List.mem_singleton.mpr rfl)
  · rw [List.mem_singleton.1 hx2]
    exact hrefl _

theorem latest_promo_spec (df : List PromoRecord) (h : df ≠ []) :
    ∃ r, latest_promo df = some r ∧ r ∈ df ∧ ∀ s ∈ df, s.promo_start ≤ r.promo_start := by
  have hne : df.mergeSort (fun a b => a.promo_start ≤ b.promo_start) ≠ [] := by
    intro hnil
    have hlen := congrArg List.length hnil
    rw [List.length_mergeSort] at hlen
    exact h (List.length_eq_zero.1 hlen)
  have hsort := @List.sorted_mergeSort PromoRecord
    (fun a b : PromoRecord => decide (a.promo_start ≤ b.promo_start))
    (fun a b c hab hbc => by
      simp only [decide_eq_true_eq] at *
      omega)
    (fun a b => by
      simp only [Bool.or_eq_true, decide_eq_true_eq]
      omega)
    df
  refine ⟨(df.mergeSort (fun a b => a.promo_start ≤ b.promo_start)).getLast hne, ?_, ?_, ?_⟩
  · exact List.getLast?_eq_getLast _ hne
  · exact List.mem_mergeSort.1 (List.getLast_mem hne)
  · intro s hs
    have hrel := pairwise_rel_getLast (fun a => by simp) hsort hne s (List.mem_mergeSort.2 hs)
    simpa using hrel

theorem recommend_for_fst (r : PromoRecord) :
    (recommend_for r).1 = some (classify_item r.lift r.profit_difference) := by
  simp only [recommend_for, classify_item]
  split_ifs <;> rfl

theorem classify_overall_eq_recommend (df : List PromoRecord) (h : df ≠ [])
    {r : PromoRecord} (hr : latest_promo df = some r) :
    classify_overall_recommendation df = recommend_for r := by
  unfold classify_overall_recommendation
  rw [hr, if_neg (by simp [List.isEmpty_iff, h])]

/-- C5: the label component chosen by the four-branch logic inside the
recommendation generator always equals the quadrant classifier of lines
66-74 on the lift and profit difference of the record it classifies. -/
theorem recommendation_label_agrees (df : List PromoRecord) (h : df ≠ []) :
    ∃ r ∈ df, (classify_overall_recommendation df).1
      = some (classify_item r.lift r.profit_difference) := by
  obtain ⟨r, hr, hmem, _⟩ := latest_promo_spec df h
  exact ⟨r, hmem, by rw [classify_overall_eq_recommend df h hr, recommend_for_fst]⟩

/-- Witness for C5 on a one-record item. -/
theorem recommendation_label_agrees_witness :
    (classify_overall_recommendation [wRec1]).1
      = some (classify_item wRec1.lift wRec1.profit_difference) := by
  obtain ⟨r, hmem, heq⟩ := recommendation_label_agrees [wRec1] (by simp)
  have hr1 : r = wRec1 := by simpa using hmem
  rwa [hr1] at heq

/-- C6: on a nonempty record set the recommendation generator classifies the
record whose promo_start is maximal in the set, and its whole output is the
four-branch recommendation computed from that record. -/
theorem recommendation_uses_latest (df : List PromoRecord) (h : df ≠ []) :
    ∃ r, latest_promo df = some r ∧ r ∈ df
      ∧ (∀ s ∈ df, s.promo_start ≤ r.promo_start)
      ∧ classify_overall_recommendation df = recommend_for r := by
  obtain ⟨r, hr, hmem, hmax⟩ := latest_promo_spec df h
  exact ⟨r, hr, hmem, hmax, classify_overall_eq_recommend df h hr⟩

/-- Witness for C6: of two records the one with the later promo_start is
classified. -/
theorem recommendation_uses_latest_witness :
    latest_promo [wRec1, wRec2] = some wRec2
    ∧ classify_overall_recommendation [wRec1, wRec2] = recommend_for wRec2 := by
  obtain ⟨r, hr, hmem, hmax, heq⟩ := recommendation_uses_latest [wRec1, wRec2] (by simp)
  simp only [List.mem_cons, List.mem_singleton, List.not_mem_nil, or_false] at hmem
  have hr2 : r = wRec2 := by
    rcases hmem with h1 | h2
    · subst h1
      have h8 := hmax wRec2 (by simp)
      simp [wRec1, wRec2] at h8
    · exact h2
  subst hr2
  exact ⟨hr, heq⟩

/-- C7: on the empty record set the recommendation generator returns the
no-promotions message with a none label, and in particular never one of the
four classification labels. -/
theorem recommendation_empty :
    classify_overall_recommendation [] = (none, "No promotions found for this item.")
    ∧ (classify_overall_recommendation []).1 = none :=
  ⟨rfl, rfl⟩

/-- C8: whenever the min-promo filter leaves no aggregate rows, the highlight
selector returns the empty list. -/
theorem highlight_items_empty_filter (summary : List ItemAggregate) (min_promos : Nat)
    (h : filtered_df min_promos summary = []) :
    highlight_items min_promos summary = [] := by
  simp [highlight_items, h]

/-- Witness for C8: a single aggregate with one promotion, threshold two. -/
theorem highlight_items_empty_filter_witness :
    filtered_df 2 [wAgg1] = [] ∧ highlight_items 2 [wAgg1] = [] :=
  ⟨by simp [filtered_df, wAgg1],
   highlight_items_empty_filter [wAgg1] 2 (by simp [filtered_df, wAgg1])⟩

theorem take_mergeSort_rel {α : Type} {le : α → α → Bool} {xs : List α}
    (hsort : (xs.mergeSort le).Pairwise (fun a b => le a b = true))
    {n : Nat} {a b : α} (ha : a ∈ (xs.mergeSort le).take n) (hb : b ∈ xs)
    (hbn : b ∉ (xs.mergeSort le).take n) : le a b = true := by
  have hb' : b ∈ xs.mergeSort le := List.mem_mergeSort.2 hb
  rw [← List.take_append_drop n (xs.mergeSort le)] at hb' hsort
  rcases List.mem_append.1 hb' with h1 | h2
  · exact absurd h1 hbn
  · exact (List.pairwise_append.1 hsort).2.2 a ha b h2

theorem sorted_desc_avg_profit (xs : List ItemAggregate) :
    (xs.mergeSort (fun a b => b.avg_profit ≤ a.avg_profit)).Pairwise
      (fun a b => decide (b.avg_profit ≤ a.avg_profit) = true) :=
  List.sorted_mergeSort
    (fun a b c hab hbc => by
      simp only [decide_eq_true_eq] at *
      exact le_trans hbc hab)
    (fun a b => by
      simp only [Bool.or_eq_true, decide_eq_true_eq]
      exact le_total b.avg_profit a.avg_profit)
    xs

theorem sorted_asc_avg_profit (xs : List ItemAggregate) :
    (xs.mergeSort (fun a b => a.avg_profit ≤ b.avg_profit)).Pairwise
      (fun a b => decide (a.avg_profit ≤ b.avg_profit) = true) :=
  List.sorted_mergeSort
    (fun a b c hab hbc => by
      simp only [decide_eq_true_eq] at *
      exact le_trans hab hbc)
    (fun a b => by
      simp only [Bool.or_eq_true, decide_eq_true_eq]
      exact le_total a.avg_profit b.avg_profit)
    xs

theorem mem_starCandidates {min_promos : Nat} {summary : List ItemAggregate}
    {a : ItemAggregate} (h : a ∈ starCandidates min_promos summary) :
    a ∈ summary ∧ min_promos ≤ a.promo_count
      ∧ (1.2 : ℚ) ≤ a.avg_lift ∧ (0 : ℚ) < a.avg_profit := by
  obtain ⟨hfd, hpred⟩ := List.mem_filter.1 h
  obtain ⟨hsum, hcount⟩ := List.mem_filter.1 hfd
  simp only [decide_eq_true_eq] at hpred hcount
  exact ⟨hsum, hcount, hpred.1, hpred.2⟩

theorem mem_riskCandidates {min_promos : Nat} {summary : List ItemAggregate}
    {a : ItemAggregate} (h : a ∈ riskCandidates min_promos summary) :
    a ∈ summary ∧ min_promos ≤ a.promo_count
      ∧ a.avg_lift < (1.2 : ℚ) ∧ a.avg_profit < (0 : ℚ) := by
  obtain ⟨hfd, hpred⟩ := List.mem_filter.1 h
  obtain ⟨hsum, hcount⟩ := List.mem_filter.1 hfd
  simp only [decide_eq_true_eq] at hpred hcount
  exact ⟨hsum, hcount, hpred.1, hpred.2⟩

/-- C4: the highlight selector keeps only items passing the min-promo filter,
returns the stars segment (at most 2, star quadrant, avg_profit descending,
dominating every left-out star candidate) followed by the risks segment (at
most 2, risk quadrant, avg_profit ascending, dominated by every left-out
risk candidate), hence never more than 4 items and fewer when fewer qualify. -/
theorem highlight_items_spec (summary : List ItemAggregate) (min_promos : Nat) :
    (highlight_items min_promos summary).length ≤ 4
    ∧ ∃ stars risks : List ItemAggregate,
        highlight_items min_promos summary = stars ++ risks
        ∧ stars.length = min 2 (starCandidates min_promos summary).length
        ∧ risks.length = min 2 (riskCandidates min_promos summary).length
        ∧ (∀ a ∈ stars, a ∈ summary ∧ min_promos ≤ a.promo_count
            ∧ (1.2 : ℚ) ≤ a.avg_lift ∧ (0 : ℚ) < a.avg_profit)
        ∧ (∀ a ∈ risks, a ∈ summary ∧ min_promos ≤ a.promo_count
            ∧ a.avg_lift < (1.2 : ℚ) ∧ a.avg_profit < (0 : ℚ))
        ∧ stars.Pairwise (fun a b => b.avg_profit ≤ a.avg_profit)
        ∧ risks.Pairwise (fun a b => a.avg_profit ≤ b.avg_profit)
        ∧ (∀ a ∈ stars, ∀ b ∈ starCandidates min_promos summary,
            b ∉ stars → b.avg_profit ≤ a.avg_profit)
        ∧ (∀ a ∈ risks, ∀ b ∈ riskCandidates min_promos summary,
            b ∉ risks → a.avg_profit ≤ b.avg_profit) := by
  by_cases hfd : (filtered_df min_promos summary).isEmpty
  · have hnil : filtered_df min_promos summary = [] := by
      simpa [List.isEmpty_iff] using hfd
    have hH : highlight_items min_promos summary = [] := by
      simp [highlight_items, hfd]
    have hstar : starCandidates min_promos summary = [] := by
      simp [starCandidates, hnil]
    have hrisk : riskCandidates min_promos summary = [] := by
      simp [riskCandidates, hnil]
    refine ⟨by simp [hH], [], [], by simp [hH], by simp [hstar], by simp [hrisk],
      by simp, by simp, by simp, by simp, by simp [hstar], by simp [hrisk]⟩
  · have hH : highlight_items min_promos summary
        = nlargest 2 ItemAggregate.avg_profit (starCandidates min_promos summary)
          ++ nsmallest 2 ItemAggregate.avg_profit (riskCandidates min_promos summary) := by
      simp [highlight_items, hfd]
    have hsortS := sorted_desc_avg_profit (starCandidates min_promos summary)
    have hsortR := sorted_asc_avg_profit (riskCandidates min_promos summary)
    refine ⟨?_, nlargest 2 ItemAggregate.avg_profit (starCandidates min_promos summary),
      nsmallest 2 ItemAggregate.avg_profit (riskCandidates min_promos summary),
      hH, ?_, ?_, ?_, ?_, ?_, ?_, ?_, ?_⟩
    · rw [hH]
      have h1 : (nlargest 2 ItemAggregate.avg_profit
          (starCandidates min_promos summary)).length ≤ 2 := by
        simp [nlargest]
      have h2 : (nsmallest 2 ItemAggregate.avg_profit
          (riskCandidates min_promos summary)).length ≤ 2 := by
        simp [nsmallest]
      rw [List.length_append]
      omega
    · simp [nlargest]
    · simp [nsmallest]
    · intro a ha
      exact mem_starCandidates
        (List.mem_mergeSort.1 (List.mem_of_mem_take ha))
    · intro a ha
      exact mem_riskCandidates
        (List.mem_mergeSort.1 (List.mem_of_mem_take ha))
    · exact (List.Pairwise.sublist (List.take_sublist _ _) hsortS).imp
        (fun h => by simpa using h)
    · exact (List.Pairwise.sublist (List.take_sublist _ _) hsortR).imp
        (fun h => by simpa using h)
    · intro a ha b hb hbn
      have := take_mergeSort_rel hsortS ha hb hbn
      simpa using this
    · intro a ha b hb hbn
      have := take_mergeSort_rel hsortR ha hb hbn
      simpa using this

/-- Witness for C4 at a concrete one-row summary. -/
theorem highlight_items_spec_witness :
    (highlight_items 1 [wAgg1]).length ≤ 4 :=
  (highlight_items_spec [wAgg1] 1).1

/-- C9 counterexample: the date-conversion step of lines 197-198 adds two
derived columns to the loaded promo_periods table, so after a pipeline run
the table differs from its state at load time. -/
theorem pipeline_adds_date_columns_cex :
    (load_promo_periods [wRec1]).extraCols = []
    ∧ (run_pipeline [wRec1] 1 "APPLES").finalTable.extraCols ≠ []
    ∧ (run_pipeline [wRec1] 1 "APPLES").finalTable ≠ load_promo_periods [wRec1] := by
  have h2 : (run_pipeline [wRec1] 1 "APPLES").finalTable.extraCols ≠ [] := by
    simp [run_pipeline, add_date_columns, load_promo_periods]
  exact ⟨rfl, h2, fun hEq => h2 (by rw [hEq]; rfl)⟩

/-- C9 (amended): no downstream step mutates any loaded PromoRecord row and
no rows are added or removed, but the pipeline does add exactly the two
derived date columns start_date and end_date to the loaded table. -/
theorem pipeline_preserves_rows (rows : List PromoRecord) (min_promos : Nat)
    (selected_item : String) :
    (run_pipeline rows min_promos selected_item).finalTable.rows = rows
    ∧ (run_pipeline rows min_promos selected_item).finalTable.extraCols
        = [("start_date", rows.map PromoRecord.promo_start),
           ("end_date", rows.map PromoRecord.promo_end)] :=
  ⟨rfl, rfl⟩

/-- C10: the pipeline is deterministic: equal input tables and equal user
parameters give identical outputs (aggregates, highlights, labels,
recommendation and final table state). -/
theorem pipeline_deterministic (rows₁ rows₂ : List PromoRecord) (minp₁ minp₂ : Nat)
    (sel₁ sel₂ : String) (hrows : rows₁ = rows₂) (hmin : minp₁ = minp₂)
    (hsel : sel₁ = sel₂) :
    run_pipeline rows₁ minp₁ sel₁ = run_pipeline rows₂ minp₂ sel₂ := by
  rw [hrows, hmin, hsel]

/-- Witness for C10 at a concrete run. -/
theorem pipeline_deterministic_witness :
    run_pipeline [wRec1] 1 "APPLES" = run_pipeline [wRec1] 1 "APPLES" :=
  pipeline_deterministic [wRec1] [wRec1] 1 1 "APPLES" "APPLES" rfl rfl rfl
